import Mathlib

/-!
Shallow embedding of the plugin-lifecycle and permission core of the
endstone repository (src/src/endstone/plugin/simple_plugin_manager.cpp and
src/include/endstone/plugin/plugin_loader.h), together with theorems
settling the frozen claims about it.

Modelling conventions:
  * C++ std::string values are `List Char`; std::tolower in the C locale is
    modelled on the ASCII range only.
  * std::map / std::unordered_map members are association lists
    (`List (key × value)`) with unique keys maintained by the update
    operation; iteration order is the list order (the claims under
    consideration do not depend on std::map's key-sorted order).
  * Raw pointers (Plugin*, Permission*, Permissible*) are modelled as `Nat`
    identities; `unique_ptr` members that may be moved-from are
    `Option Nat` (`none` is the null pointer).
  * Dereferencing a null loader pointer is undefined behaviour in the
    source; functions on that path return `Option`, with `none` marking the
    undefined-behaviour outcome.
  * Logging and subscriber notification are modelled as event lists
    appended to the state.
-/

set_option autoImplicit false

namespace Endstone

/-- ASCII action of std::tolower in the C locale, applied characterwise by
the canonicalization loops in simple_plugin_manager.cpp. -/
def tolowerChar (c : Char) : Char :=
  if 'A' ≤ c ∧ c ≤ 'Z' then Char.ofNat (c.toNat + 32) else c

/-- The lowercase canonicalization `std::transform(..., ::tolower)` applied
to a whole name. -/
def toLowerStr (s : List Char) : List Char := s.map tolowerChar

section AssocHelpers

variable {α : Type} {β : Type} [DecidableEq α]

/-- `m.find(k)` on an association-list map. -/
def mfind : List (α × β) → α → Option β
  | [], _ => none
  | (a, b) :: rest, k => if a = k then some b else mfind rest k

/-- `m[k] = v`: assign through `operator[]`, inserting the key when absent. -/
def mset : List (α × β) → α → β → List (α × β)
  | [], k, v => [(k, v)]
  | (a, b) :: rest, k, v => if a = k then (a, v) :: rest else (a, b) :: mset rest k v

/-- `m.erase(k)`: remove the entry with the given key, if present. -/
def merase : List (α × β) → α → List (α × β)
  | [], _ => []
  | (a, b) :: rest, k => if a = k then rest else (a, b) :: merase rest k

/-- The key set of an association-list map. -/
def mkeys (l : List (α × β)) : List α := l.map Prod.fst

end AssocHelpers

/-- Modelled from the spec: the role enumeration carried by permissibles
("one of a small fixed enumeration, e.g. operator / non-operator /
console"); the defining header (permissible.h) is not among the provided
sources. -/
inductive PermissibleRole
  | operator
  | player
  | console
deriving DecidableEq

/-- Modelled from the spec: a permission's default-grant policy, "a policy
function from role to boolean"; the Permission/PermissionDefault headers
are not among the provided sources. Represented pointwise over the finite
role enumeration. -/
structure PermissionDefault where
  opGrant : Bool
  playerGrant : Bool
  consoleGrant : Bool
deriving DecidableEq

/-- `permission.getDefault().hasPermission(role)` as read by
calculatePermissionDefault. -/
def PermissionDefault.hasPermission : PermissionDefault → PermissibleRole → Bool
  | d, .operator => d.opGrant
  | d, .player => d.playerGrant
  | d, .console => d.consoleGrant

/-- Modelled from the spec: the default-allow-none policy a freshly created
SimplePermission carries ("creates a node with default-allow-none
policy"); simple_permission.h is not among the provided sources. -/
def PermissionDefault.allowNone : PermissionDefault :=
  ⟨false, false, false⟩

/-- A permission node: instance identity (the object's address), canonical
name, and default-grant policy. -/
structure Permission where
  pid : Nat
  name : List Char
  permDefault : PermissionDefault
deriving DecidableEq

/-- A plugin instance: identity (the object's address), declared name,
enabled flag, and declared command identities from its descriptor. -/
structure Plugin where
  pid : Nat
  name : List Char
  enabled : Bool
  commands : List Nat
deriving DecidableEq

/-- The logger messages emitted by the modelled operations. -/
inductive LogEntry
  | fileNotExist (file : List Char)
  | invalidPluginName (file : List Char)
  | dirNotExist (dir : List Char)
  | notDirectory (dir : List Char)
  | permissionAlreadyDefined (name : List Char)
  | enabling (name : List Char)
  | disabling (name : List Char)
deriving DecidableEq

/-- The mutable state of a SimplePluginManager:
  * fileAssociations: file_associations_ (pattern → unique_ptr loader,
    possibly null after a move);
  * lookupNames: lookup_names_ (plugin name → Plugin*);
  * plugins: plugins_ (the owning vector);
  * permissions: permissions_ (canonical name → owned Permission node);
  * defaultPermissions: default_permissions_ (role → vector of Permission*);
  * defaultSubscriptions: default_subscriptions_ (role → key set of the
    map<Permissible*, bool>);
  * permissionSubscriptions: permission_subscriptions_ (canonical name →
    key set of the map<Permissible*, bool>);
  * commandRegs: the registerAll calls issued on the external command map;
  * notifications: the recalculatePermissions() calls issued on subscribed
    permissibles, as (role, permissible) events;
  * log: messages sent to the server logger;
  * nextId: allocator counter for fresh node identities. -/
structure PMState where
  fileAssociations : List (List Char × Option Nat)
  lookupNames : List (List Char × Nat)
  plugins : List Plugin
  permissions : List (List Char × Permission)
  defaultPermissions : List (PermissibleRole × List Nat)
  defaultSubscriptions : List (PermissibleRole × List Nat)
  permissionSubscriptions : List (List Char × List Nat)
  commandRegs : List (List Char × List Nat)
  notifications : List (PermissibleRole × Nat)
  log : List LogEntry
  nextId : Nat
deriving DecidableEq

/-- The external world loadPlugin consults: filesystem existence and
regular-file tests, std::regex_search of a file path against a registered
pattern (an external library call, taken as an oracle), and each loader's
loadPlugin behaviour (loader identity, file path → produced plugin or
null). -/
structure Env where
  fexists : List Char → Bool
  fregular : List Char → Bool
  rmatches : List Char → List Char → Bool
  load : Nat → List Char → Option Plugin

/-- Modelled from the spec: the PluginDescription::ValidName charset
pattern, `[A-Za-z0-9_]+`; plugin_description.h is not among the provided
sources. -/
def isNameChar (c : Char) : Bool :=
  ('A' ≤ c && c ≤ 'Z') || ('a' ≤ c && c ≤ 'z') || ('0' ≤ c && c ≤ '9') || c = '_'

/-- `std::regex_match(name, PluginDescription::ValidName)`. -/
def validName (s : List Char) : Bool :=
  !s.isEmpty && s.all isNameChar

/-- The loop body of SimplePluginManager::registerLoader:
`file_associations_[pattern] = std::move(loader)` for each pattern. After
the first iteration the local unique_ptr has been moved from, so every
later pattern is assigned the null pointer; the recursive call therefore
passes `none` for the loader. -/
def registerLoaderLoop (assoc : List (List Char × Option Nat))
    (loader : Option Nat) : List (List Char) → List (List Char × Option Nat)
  | [] => assoc
  | p :: ps => registerLoaderLoop (mset assoc p loader) none ps

/-- SimplePluginManager::registerLoader. `patterns` is the result of the
loader's getPluginFileFilters(); `loaderId` is the identity of the owned
loader object being registered. -/
def registerLoader (st : PMState) (loaderId : Nat)
    (patterns : List (List Char)) : PMState :=
  { st with fileAssociations :=
      registerLoaderLoop st.fileAssociations (some loaderId) patterns }

/-- SimplePluginManager::getPlugin: lookup_names_.find(name), nullptr when
absent. The lookup is exact (no canonicalization). -/
def getPlugin (st : PMState) (name : List Char) : Option Nat :=
  mfind st.lookupNames name

/-- SimplePluginManager::isPluginEnabled(Plugin*): null yields false;
otherwise find_if over the owning vector by object identity, and the
enabled flag of the found object (the && short-circuits, so an instance
absent from the vector is never dereferenced). -/
def isPluginEnabledPtr (st : PMState) (plugin : Option Nat) : Bool :=
  match plugin with
  | none => false
  | some pid =>
    match st.plugins.find? (fun p => p.pid == pid) with
    | none => false
    | some p => p.enabled

/-- SimplePluginManager::isPluginEnabled(name): isPluginEnabled(getPlugin(name)). -/
def isPluginEnabledByName (st : PMState) (name : List Char) : Bool :=
  isPluginEnabledPtr st (getPlugin st name)

/-- The association-scanning loop of SimplePluginManager::loadPlugin: for
each (pattern, loader) entry, if the pattern regex-matches the file path,
invoke the loader; a null plugin result falls through to the next entry;
a produced plugin with an invalid name logs an error and returns nullptr;
a valid one is indexed in lookup_names_ (overwriting any previous entry
for that name), appended to the owning vector, and returned. Reaching a
moved-from (null) loader entry whose pattern matches dereferences a null
pointer: that undefined behaviour is the outer `none`. -/
def loadPluginLoop (env : Env) (st : PMState) (file : List Char) :
    List (List Char × Option Nat) → Option (Option Nat × PMState)
  | [] => some (none, st)
  | (pattern, loader) :: rest =>
    if env.rmatches file pattern then
      match loader with
      | none => none
      | some l =>
        match env.load l file with
        | some plugin =>
          if validName plugin.name then
            some (some plugin.pid,
              { st with
                lookupNames := mset st.lookupNames plugin.name plugin.pid,
                plugins := st.plugins ++ [plugin] })
          else
            some (none, { st with log := st.log ++ [LogEntry.invalidPluginName file] })
        | none => loadPluginLoop env st file rest
    else loadPluginLoop env st file rest

/-- SimplePluginManager::loadPlugin: a missing file logs an error but the
scan over file_associations_ still proceeds (the source does not return
early there). -/
def loadPlugin (env : Env) (st : PMState) (file : List Char) :
    Option (Option Nat × PMState) :=
  let st0 := if env.fexists file then st
             else { st with log := st.log ++ [LogEntry.fileNotExist file] }
  loadPluginLoop env st0 file st0.fileAssociations

/-- The status an entry of the scanned directory reports. -/
inductive EntryKind
  | regularFile
  | subdirectory
  | other
deriving DecidableEq

/-- One entry produced by the directory_iterator. -/
structure DirEntry where
  path : List Char
  kind : EntryKind
deriving DecidableEq

/-- The directory handed to loadPlugins: its path, whether it exists,
whether it is a directory, and the entries its iteration yields. -/
structure Dir where
  path : List Char
  dexists : Bool
  isDirectory : Bool
  entries : List DirEntry
deriving DecidableEq

/-- The conventional descriptor file name appended to a subdirectory
entry: `entry.path() / "plugin.toml"`. -/
def tomlSuffix : List Char := ("/plugin.toml").toList

/-- The candidate-selection step of the loadPlugins loop: a regular file
is a candidate directly; a subdirectory is a candidate through its
plugin.toml when that file exists and is regular; everything else is
skipped. -/
def candidateOf (env : Env) (e : DirEntry) : Option (List Char) :=
  match e.kind with
  | .regularFile => some e.path
  | .subdirectory =>
    let file := e.path ++ tomlSuffix
    if env.fexists file && env.fregular file then some file else none
  | .other => none

/-- The entry loop of SimplePluginManager::loadPlugins: each candidate is
passed to loadPlugin; a null result is skipped, a non-null result is
collected. The outer `none` propagates the undefined-behaviour outcome of
loadPlugin. -/
def loadPluginsLoop (env : Env) (st : PMState) :
    List DirEntry → Option (List Nat × PMState)
  | [] => some ([], st)
  | e :: es =>
    match candidateOf env e with
    | none => loadPluginsLoop env st es
    | some file =>
      match loadPlugin env st file with
      | none => none
      | some (res, st1) =>
        match loadPluginsLoop env st1 es with
        | none => none
        | some (loaded, st2) =>
          match res with
          | some pid => some (pid :: loaded, st2)
          | none => some (loaded, st2)

/-- SimplePluginManager::loadPlugins: a missing path or a non-directory
logs an error and returns the empty list; otherwise the entries are
scanned. -/
def loadPlugins (env : Env) (st : PMState) (dir : Dir) :
    Option (List Nat × PMState) :=
  if !dir.dexists then
    some ([], { st with log := st.log ++ [LogEntry.dirNotExist dir.path] })
  else if !dir.isDirectory then
    some ([], { st with log := st.log ++ [LogEntry.notDirectory dir.path] })
  else loadPluginsLoop env st dir.entries

/-- PluginLoader::enablePlugin (the default hook in plugin_loader.h): when
the plugin is not yet enabled, log the "Enabling" message and set the
flag. -/
def loaderEnablePlugin (p : Plugin) : Plugin × List LogEntry :=
  if p.enabled then (p, [])
  else ({ p with enabled := true }, [LogEntry.enabling p.name])

/-- SimplePluginManager::enablePlugin: when the plugin is not enabled,
wrap and register its declared commands on the command map (only when the
command list is non-empty), then delegate to the loader's enable hook.
Returns the updated plugin object alongside the updated manager state. -/
def enablePlugin (st : PMState) (p : Plugin) : Plugin × PMState :=
  if p.enabled then (p, st)
  else
    let st1 :=
      if p.commands.isEmpty then st
      else { st with commandRegs := st.commandRegs ++ [(p.name, p.commands)] }
    let r := loaderEnablePlugin p
    (r.1, { st1 with log := st1.log ++ r.2 })

/-- SimplePluginManager::getPermission: canonicalize to lowercase, look up
in permissions_, nullptr when absent. -/
def getPermission (st : PMState) (name : List Char) : Option Permission :=
  mfind st.permissions (toLowerStr name)

/-- SimplePluginManager::getDefaultPermissionSubscriptions: the key set of
default_subscriptions_[role], empty when the role is absent (this getter
does check find against end). -/
def getDefaultPermissionSubscriptions (st : PMState) (role : PermissibleRole) :
    List Nat :=
  match mfind st.defaultSubscriptions role with
  | none => []
  | some l => l

/-- The loop of SimplePluginManager::calculatePermissionDefault over the
entries of default_permissions_: for each role granted by the node's
policy, push the node onto that role's vector and, when `update` holds,
invoke updatePermissibles(role) — i.e. recalculatePermissions() on every
permissible subscribed to that role's defaults, recorded here as
notification events. Returns the rebuilt entry list and the emitted
events. -/
def calcDefaultLoop (st : PMState) (perm : Permission) (update : Bool) :
    List (PermissibleRole × List Nat) →
      List (PermissibleRole × List Nat) × List (PermissibleRole × Nat)
  | [] => ([], [])
  | (role, perms) :: rest =>
    let r := calcDefaultLoop st perm update rest
    if perm.permDefault.hasPermission role then
      ((role, perms ++ [perm.pid]) :: r.1,
       (if update then
          (getDefaultPermissionSubscriptions st role).map (fun p => (role, p))
        else []) ++ r.2)
    else ((role, perms) :: r.1, r.2)

/-- SimplePluginManager::calculatePermissionDefault. -/
def calculatePermissionDefault (st : PMState) (perm : Permission)
    (update : Bool) : PMState :=
  let r := calcDefaultLoop st perm update st.defaultPermissions
  { st with defaultPermissions := r.1, notifications := st.notifications ++ r.2 }

/-- SimplePluginManager::addPermission(name, update): canonicalize;
`permissions_.insert` keeps the existing node on a duplicate key and the
source then logs "The permission {} is already defined."; on a fresh key
a new SimplePermission with the default-allow-none policy is stored and
calculatePermissionDefault runs. Returns the node the reference to which
the source returns, alongside the updated state. -/
def addPermission (st : PMState) (name : List Char) (update : Bool) :
    Permission × PMState :=
  let lower := toLowerStr name
  match mfind st.permissions lower with
  | some existing =>
    (existing, { st with log := st.log ++ [LogEntry.permissionAlreadyDefined lower] })
  | none =>
    let perm : Permission :=
      { pid := st.nextId, name := lower, permDefault := PermissionDefault.allowNone }
    let st1 := { st with
      permissions := mset st.permissions lower perm,
      nextId := st.nextId + 1 }
    (perm, calculatePermissionDefault st1 perm update)

/-- SimplePluginManager::removePermission: canonicalize and erase from
permissions_. Nothing else is touched: in particular the role vectors in
default_permissions_ keep whatever entries point at the erased node. -/
def removePermission (st : PMState) (name : List Char) : PMState :=
  { st with permissions := merase st.permissions (toLowerStr name) }

/-- SimplePluginManager::getDefaultPermissions:
`default_permissions_.find(role)->second` with no end check — when the
role is absent the end iterator is dereferenced, which is undefined
behaviour, modelled as `none`; a present role yields its vector. -/
def getDefaultPermissions (st : PMState) (role : PermissibleRole) :
    Option (List Nat) :=
  mfind st.defaultPermissions role

/-- insert_or_assign on the map<Permissible*, bool> member: the key set
gains the permissible when absent; a present key only has its (always
true) value reassigned. -/
def subInsert (l : List Nat) (pid : Nat) : List Nat :=
  if l.contains pid then l else l ++ [pid]

/-- SimplePluginManager::subscribeToPermission: canonicalize;
`permission_subscriptions_[lower_name]` default-inserts an empty set when
the name is absent; insert_or_assign adds the permissible. -/
def subscribeToPermission (st : PMState) (permission : List Char) (pid : Nat) :
    PMState :=
  let lower := toLowerStr permission
  let cur := (mfind st.permissionSubscriptions lower).getD []
  { st with permissionSubscriptions :=
      (mset st.permissionSubscriptions lower (subInsert cur pid)) }

/-- SimplePluginManager::unsubscribeFromPermission: canonicalize;
`auto map = permission_subscriptions_[lower_name];` — operator[]
default-inserts an empty set when the name is absent, and the declaration
binds a COPY of the stored map (the source lacks the `&` its subscribe
counterpart has), so the subsequent `map.erase(&permissible)` acts on the
discarded local copy and the stored index keeps the subscriber. -/
def unsubscribeFromPermission (st : PMState) (permission : List Char)
    (pid : Nat) : PMState :=
  let lower := toLowerStr permission
  let subs :=
    match mfind st.permissionSubscriptions lower with
    | none => mset st.permissionSubscriptions lower []
    | some _ => st.permissionSubscriptions
  let mapCopy := (mfind subs lower).getD []
  let _ := mapCopy.filter (fun x => x ≠ pid)
  { st with permissionSubscriptions := subs }

/-- SimplePluginManager::getPermissionSubscriptions: canonicalize; an
absent name yields the empty vector, a present one the key set of its
subscriber map. -/
def getPermissionSubscriptions (st : PMState) (permission : List Char) :
    List Nat :=
  match mfind st.permissionSubscriptions (toLowerStr permission) with
  | none => []
  | some l => l

/-- The entry loop of loadPlugins, instrumented to keep every candidate's
loadPlugin result (null results included, in scan order) instead of
dropping the null ones. Used to state that loadPlugins returns exactly
the successful candidates. -/
def scanOutcomes (env : Env) (st : PMState) :
    List DirEntry → Option (List (Option Nat) × PMState)
  | [] => some ([], st)
  | e :: es =>
    match candidateOf env e with
    | none => scanOutcomes env st es
    | some file =>
      match loadPlugin env st file with
      | none => none
      | some (res, st1) =>
        match scanOutcomes env st1 es with
        | none => none
        | some (outs, st2) => some (res :: outs, st2)

/-- No pattern in file_associations_ is associated with a moved-from
(null) loader: the precondition under which loadPlugin never dereferences
a null pointer. -/
def noNullLoaders (st : PMState) : Prop :=
  ∀ pr ∈ st.fileAssociations, pr.2 ≠ none

instance (st : PMState) : Decidable (noNullLoaders st) :=
  List.decidableBAll _ _

/- Concrete states, environments and inputs used by witnesses and
counterexamples. -/

/-- A manager state with every container empty, as after the
SimplePluginManager constructor body (which fills none of them). -/
def stEmpty : PMState :=
  ⟨[], [], [], [], [], [], [], [], [], [], 0⟩

/-- The plugin name shared by the two instances of the duplicate-name
scenario. -/
def alphaName : List Char := ("alpha").toList

/-- A file pattern for the registered loader. -/
def whlPat : List Char := ("whl").toList

/-- The originally registered plugin instance named alpha. -/
def pluginAlpha1 : Plugin := ⟨1, alphaName, false, []⟩

/-- A second, distinct plugin instance also named alpha, produced by a
later load. -/
def pluginAlpha2 : Plugin := ⟨2, alphaName, false, []⟩

/-- Environment for the duplicate-name scenario: the file exists, the
single registered pattern matches, and the loader materializes the second
alpha instance. -/
def envDup : Env :=
  ⟨fun _ => true, fun _ => true, fun _ _ => true, fun _ _ => some pluginAlpha2⟩

/-- State for the duplicate-name scenario: loader 0 registered under one
pattern, and the first alpha instance owned and indexed. -/
def stDup : PMState :=
  ⟨[(whlPat, some 0)], [(alphaName, 1)], [pluginAlpha1], [], [], [], [], [], [], [], 0⟩

/-- A permission name for the subscription scenarios. -/
def permName : List Char := ("perm").toList

/-- Two file patterns reported by one loader's getPluginFileFilters. -/
def patA : List Char := ("a").toList

/-- Second of the two file patterns of the same loader. -/
def patB : List Char := ("b").toList

/-- The permission name of the removal scenario. -/
def xName : List Char := ("x").toList

/-- A permission node granted by default to the operator role. -/
def permX : Permission := ⟨3, xName, ⟨true, false, false⟩⟩

/-- State for the removal scenario: the node is in the node table and in
the operator role's default set (every role key present, as the spec
requires the table to be pre-populated). -/
def stRemove : PMState :=
  ⟨[], [], [], [(xName, permX)],
   [(PermissibleRole.operator, [3]), (PermissibleRole.player, []),
    (PermissibleRole.console, [])],
   [], [], [], [], [], 4⟩

/-- An enabled plugin, input of the second-enable witness. -/
def pluginOn : Plugin := ⟨1, alphaName, true, [11]⟩

/-- The valid plugin of the directory-scan witness. -/
def pluginGood : Plugin := ⟨9, ("good").toList, false, []⟩

/-- The path of the valid plugin file of the directory-scan witness. -/
def okFile : List Char := ("ok.whl").toList

/-- Environment for the directory-scan witness: one loader whose pattern
matches everything, materializing a plugin for ok.whl and failing (null)
on every other file. -/
def envScan : Env :=
  ⟨fun _ => true, fun _ => true, fun _ _ => true,
   fun _ file => if file = okFile then some pluginGood else none⟩

/-- State for the directory-scan witness: a single non-null loader. -/
def stScan : PMState :=
  ⟨[(whlPat, some 0)], [], [], [], [], [], [], [], [], [], 0⟩

/-- A directory with one valid and one malformed plugin file. -/
def dirScan : Dir :=
  ⟨("plugins").toList, true, true,
   [⟨okFile, EntryKind.regularFile⟩,
    ⟨("bad.whl").toList, EntryKind.regularFile⟩]⟩

section AssocLemmas

variable {α : Type} {β : Type} [DecidableEq α]

theorem mfind_mset_self (l : List (α × β)) (k : α) (v : β) :
    mfind (mset l k v) k = some v := by
  induction l with
  | nil => simp [mset, mfind]
  | cons hd tl ih =>
    obtain ⟨a, b⟩ := hd
    by_cases h : a = k
    · simp [mset, mfind, h]
    · simp [mset, mfind, h, ih]

theorem mkeys_cons (a : α) (b : β) (tl : List (α × β)) :
    mkeys ((a, b) :: tl) = a :: mkeys tl := rfl

theorem mfind_eq_none_of_not_mem_keys (l : List (α × β)) (k : α)
    (h : k ∉ mkeys l) : mfind l k = none := by
  induction l with
  | nil => rfl
  | cons hd tl ih =>
    obtain ⟨a, b⟩ := hd
    rw [mkeys_cons] at h
    simp only [List.mem_cons, not_or] at h
    simp [mfind, ih h.2]
    intro hak
    exact absurd hak.symm h.1

theorem mem_of_mfind_eq_some (l : List (α × β)) (k : α) (v : β)
    (h : mfind l k = some v) : (k, v) ∈ l := by
  induction l with
  | nil => simp [mfind] at h
  | cons hd tl ih =>
    obtain ⟨a, b⟩ := hd
    by_cases hak : a = k
    · subst hak
      simp [mfind] at h
      simp [h]
    · simp [mfind, hak] at h
      exact List.mem_cons_of_mem _ (ih h)

theorem mfind_isSome_of_mem_keys (l : List (α × β)) (k : α)
    (h : k ∈ mkeys l) : ∃ v, mfind l k = some v := by
  induction l with
  | nil => simp [mkeys] at h
  | cons hd tl ih =>
    obtain ⟨a, b⟩ := hd
    by_cases hak : a = k
    · exact ⟨b, by simp [mfind, hak]⟩
    · rw [mkeys_cons] at h
      simp only [List.mem_cons] at h
      rcases h with h | h
      · exact absurd h.symm hak
      · obtain ⟨v, hv⟩ := ih h
        exact ⟨v, by simp [mfind, hak, hv]⟩

end AssocLemmas

theorem calculatePermissionDefault_permissions (st : PMState)
    (perm : Permission) (u : Bool) :
    (calculatePermissionDefault st perm u).permissions = st.permissions := rfl

theorem addPermission_of_found (st : PMState) (name : List Char) (u : Bool)
    (p : Permission) (h : mfind st.permissions (toLowerStr name) = some p) :
    addPermission st name u =
      (p, { st with log :=
              st.log ++ [LogEntry.permissionAlreadyDefined (toLowerStr name)] }) := by
  simp only [addPermission, h]

theorem addPermission_of_fresh (st : PMState) (name : List Char) (u : Bool)
    (h : mfind st.permissions (toLowerStr name) = none) :
    (addPermission st name u).1 =
      ⟨st.nextId, toLowerStr name, PermissionDefault.allowNone⟩ ∧
    (addPermission st name u).2.permissions =
      mset st.permissions (toLowerStr name)
        ⟨st.nextId, toLowerStr name, PermissionDefault.allowNone⟩ := by
  simp only [addPermission, h, calculatePermissionDefault_permissions]
  constructor <;> trivial

/-- Claim C10: for every name with no plugin registered under it,
getPlugin returns the null sentinel and isPluginEnabled(name) returns
false; isPluginEnabled applied to a null plugin pointer is also false.
(Both queries are total Lean functions, so neither can fail.) -/
theorem getPlugin_unknown_name (st : PMState) (name : List Char)
    (h : name ∉ mkeys st.lookupNames) :
    getPlugin st name = none ∧ isPluginEnabledByName st name = false ∧
      isPluginEnabledPtr st none = false := by
  have hg : getPlugin st name = none := mfind_eq_none_of_not_mem_keys _ _ h
  refine ⟨hg, ?_, rfl⟩
  unfold isPluginEnabledByName
  rw [hg]
  rfl

/-- Witness for C10 at a concrete state and name. -/
theorem getPlugin_unknown_name_witness :
    getPlugin stEmpty alphaName = none ∧
      isPluginEnabledByName stEmpty alphaName = false ∧
      isPluginEnabledPtr stEmpty none = false :=
  getPlugin_unknown_name stEmpty alphaName (by decide)

/-- Claim C7: enable on an already-enabled plugin is a no-op (unchanged
plugin, no command registration, no log message), and in general a second
enable right after a first one changes nothing: enable is idempotent. -/
theorem enablePlugin_idempotent (st : PMState) (p : Plugin) :
    (p.enabled = true → enablePlugin st p = (p, st)) ∧
    enablePlugin (enablePlugin st p).2 (enablePlugin st p).1 =
      enablePlugin st p := by
  by_cases h : p.enabled
  · exact ⟨fun _ => by simp [enablePlugin, h], by simp [enablePlugin, h]⟩
  · refine ⟨fun hh => absurd hh h, ?_⟩
    simp only [Bool.not_eq_true] at h
    simp [enablePlugin, loaderEnablePlugin, h]

/-- Witness for C7: enabling an already-enabled concrete plugin leaves
plugin and state unchanged. -/
theorem enablePlugin_idempotent_witness :
    enablePlugin stEmpty pluginOn = (pluginOn, stEmpty) :=
  (enablePlugin_idempotent stEmpty pluginOn).1 rfl

/-- Claim C9: permission names are canonicalized to lowercase before
every map operation: after a successful add of N, a get with any M equal
to N up to ASCII case returns the very node that add created. -/
theorem addPermission_lookup_case_insensitive (st : PMState)
    (n m : List Char) (u : Bool)
    (hcase : toLowerStr m = toLowerStr n)
    (hfresh : toLowerStr n ∉ mkeys st.permissions) :
    getPermission (addPermission st n u).2 m = some (addPermission st n u).1 := by
  have hnone : mfind st.permissions (toLowerStr n) = none :=
    mfind_eq_none_of_not_mem_keys _ _ hfresh
  obtain ⟨h1, h2⟩ := addPermission_of_fresh st n u hnone
  unfold getPermission
  rw [h1, h2, hcase]
  exact mfind_mset_self _ _ _

/-- Witness for C9: adding Foo.Bar and looking up foo.bar yield the same
node. -/
theorem addPermission_lookup_case_insensitive_witness :
    getPermission (addPermission stEmpty (("Foo.Bar").toList) true).2
        (("foo.bar").toList) =
      some (addPermission stEmpty (("Foo.Bar").toList) true).1 :=
  addPermission_lookup_case_insensitive stEmpty (("Foo.Bar").toList)
    (("foo.bar").toList) true (by decide) (by decide)

/-- Claim C8: adding the same name a second time reports the duplicate
definition and returns the node created by the first call unchanged; no
default-set recomputation and no subscriber notification happen on the
second call, whose only state change is the error log message. -/
theorem addPermission_duplicate_kept (st : PMState) (name : List Char)
    (u : Bool) (hfresh : toLowerStr name ∉ mkeys st.permissions) :
    (addPermission (addPermission st name u).2 name true).1 =
      (addPermission st name u).1 ∧
    (addPermission (addPermission st name u).2 name true).2.permissions =
      (addPermission st name u).2.permissions ∧
    (addPermission (addPermission st name u).2 name true).2.defaultPermissions =
      (addPermission st name u).2.defaultPermissions ∧
    (addPermission (addPermission st name u).2 name true).2.notifications =
      (addPermission st name u).2.notifications ∧
    (addPermission (addPermission st name u).2 name true).2.log =
      (addPermission st name u).2.log ++
        [LogEntry.permissionAlreadyDefined (toLowerStr name)] := by
  have hnone : mfind st.permissions (toLowerStr name) = none :=
    mfind_eq_none_of_not_mem_keys _ _ hfresh
  obtain ⟨h1, h2⟩ := addPermission_of_fresh st name u hnone
  have hfound : mfind (addPermission st name u).2.permissions (toLowerStr name) =
      some (addPermission st name u).1 := by
    rw [h1, h2]
    exact mfind_mset_self _ _ _
  have hsecond := addPermission_of_found (addPermission st name u).2 name true
    (addPermission st name u).1 hfound
  rw [hsecond]
  exact ⟨rfl, rfl, rfl, rfl, rfl⟩

/-- Witness for C8 at a concrete state and name. -/
theorem addPermission_duplicate_kept_witness :
    (addPermission (addPermission stEmpty xName true).2 xName true).1 =
      (addPermission stEmpty xName true).1 ∧
    (addPermission (addPermission stEmpty xName true).2 xName true).2.permissions =
      (addPermission stEmpty xName true).2.permissions ∧
    (addPermission (addPermission stEmpty xName true).2 xName true).2.defaultPermissions =
      (addPermission stEmpty xName true).2.defaultPermissions ∧
    (addPermission (addPermission stEmpty xName true).2 xName true).2.notifications =
      (addPermission stEmpty xName true).2.notifications ∧
    (addPermission (addPermission stEmpty xName true).2 xName true).2.log =
      (addPermission stEmpty xName true).2.log ++
        [LogEntry.permissionAlreadyDefined (toLowerStr xName)] :=
  addPermission_duplicate_kept stEmpty xName true (by decide)

/-- Claim C1, evaluated at the failing input: with a plugin named alpha
already registered (instance 1), loading a file whose loader produces a
second plugin also named alpha does NOT fail: the load returns the new
instance 2, the owning vector then holds two plugins named alpha, and the
name index points at the new instance — no DuplicateName rejection
exists in the source. -/
theorem loadPlugin_duplicate_name_overwrites :
    (loadPlugin envDup stDup (("b.whl").toList)).map
        (fun r => (r.1,
          (r.2.plugins.filter (fun p => p.name == alphaName)).length,
          getPlugin r.2 alphaName)) =
      some (some 2, 2, some 2) := by decide

/-- Claim C2, evaluated at the failing input: subscribe adds permissible
7 under the name, but the following unsubscribe erases from a local copy
of the subscriber map (the source binds the map by value, not by
reference), so the subscriber is still reported afterwards. -/
theorem unsubscribe_erases_only_a_copy :
    getPermissionSubscriptions
        (unsubscribeFromPermission
          (subscribeToPermission stEmpty permName 7) permName 7)
        permName = [7] ∧
      (unsubscribeFromPermission stEmpty permName 7).permissionSubscriptions =
        [(permName, [])] := by decide

/-- Claim C3, evaluated at the failing input: registering a loader whose
fileFilters are two patterns moves the owned loader into the map at the
first pattern; the second pattern is associated with the moved-from null
pointer, not with the loader. -/
theorem registerLoader_second_pattern_null :
    (registerLoader stEmpty 5 [patA, patB]).fileAssociations =
      [(patA, some 5), (patB, none)] := by decide

/-- Claim C4, evaluated at the failing input: removing permission x
erases it from the node table, but the operator role's default set still
contains the removed node — the source's removePermission touches only
permissions_. -/
theorem removePermission_keeps_default_entry :
    getPermission (removePermission stRemove xName) xName = none ∧
      getDefaultPermissions (removePermission stRemove xName)
          PermissibleRole.operator = some [3] := by decide

/-- Claim C5 (amended): defaultsFor returns the role's current default
set when the role is present in the default-set table; a role absent
from the table makes the lookup dereference the end iterator (undefined
behaviour, modelled as no result) instead of returning an empty set. -/
theorem getDefaultPermissions_present_or_crash (st : PMState)
    (role : PermissibleRole) :
    (role ∈ mkeys st.defaultPermissions →
      ∃ l, getDefaultPermissions st role = some l ∧
        (role, l) ∈ st.defaultPermissions) ∧
    (role ∉ mkeys st.defaultPermissions →
      getDefaultPermissions st role = none) := by
  constructor
  · intro h
    obtain ⟨v, hv⟩ := mfind_isSome_of_mem_keys _ _ h
    exact ⟨v, hv, mem_of_mfind_eq_some _ _ _ hv⟩
  · intro h
    exact mfind_eq_none_of_not_mem_keys _ _ h

/-- Witness for the amended C5: at a concrete state with the operator
role present, the lookup returns that role's stored default set. -/
theorem getDefaultPermissions_present_witness :
    ∃ l, getDefaultPermissions stRemove PermissibleRole.operator = some l ∧
      (PermissibleRole.operator, l) ∈ stRemove.defaultPermissions :=
  (getDefaultPermissions_present_or_crash stRemove PermissibleRole.operator).1
    (by decide)

/-- Counterexample to C5 as stated: at a state whose default-set table
does not contain the operator role, the lookup yields no value at all,
not the empty set the claim requires. -/
theorem getDefaultPermissions_absent_not_empty :
    getDefaultPermissions stEmpty PermissibleRole.operator = none ∧
      ¬ getDefaultPermissions stEmpty PermissibleRole.operator = some [] := by
  decide

theorem loadPluginLoop_nil (env : Env) (st : PMState) (file : List Char) :
    loadPluginLoop env st file [] = some (none, st) := rfl

theorem loadPluginLoop_cons (env : Env) (st : PMState) (file : List Char)
    (pattern : List Char) (loader : Option Nat)
    (rest : List (List Char × Option Nat)) :
    loadPluginLoop env st file ((pattern, loader) :: rest) =
      (if env.rmatches file pattern then
        match loader with
        | none => none
        | some l =>
          match env.load l file with
          | some plugin =>
            if validName plugin.name then
              some (some plugin.pid,
                { st with
                  lookupNames := mset st.lookupNames plugin.name plugin.pid,
                  plugins := st.plugins ++ [plugin] })
            else
              some (none,
                { st with log := st.log ++ [LogEntry.invalidPluginName file] })
          | none => loadPluginLoop env st file rest
      else loadPluginLoop env st file rest) := rfl

theorem loadPluginLoop_spec (env : Env) (file : List Char) :
    ∀ (assoc : List (List Char × Option Nat)) (st : PMState)
      (r : Option Nat × PMState),
      loadPluginLoop env st file assoc = some r →
      r.2.fileAssociations = st.fileAssociations ∧
        (r.1 = none → r.2 = { st with log := r.2.log }) := by
  intro assoc
  induction assoc with
  | nil =>
    intro st r h
    rw [loadPluginLoop_nil] at h
    simp only [Option.some.injEq] at h
    rw [← h]
    exact ⟨rfl, fun _ => rfl⟩
  | cons hd tl ih =>
    intro st r h
    obtain ⟨pattern, loader⟩ := hd
    rw [loadPluginLoop_cons] at h
    split at h
    · split at h
      · exact absurd h (by simp)
      · split at h
        · split at h
          · simp only [Option.some.injEq] at h
            subst h
            exact ⟨rfl, fun hx => by simp at hx⟩
          · simp only [Option.some.injEq] at h
            subst h
            exact ⟨rfl, fun _ => rfl⟩
        · exact ih st r h
    · exact ih st r h

theorem loadPluginLoop_total (env : Env) (file : List Char) :
    ∀ (assoc : List (List Char × Option Nat)) (st : PMState),
      (∀ pr ∈ assoc, pr.2 ≠ none) →
      (loadPluginLoop env st file assoc).isSome := by
  intro assoc
  induction assoc with
  | nil => intro st _; rfl
  | cons hd tl ih =>
    intro st h
    obtain ⟨pattern, loader⟩ := hd
    have hl : loader ≠ none := h (pattern, loader) (List.mem_cons_self _ _)
    have htl : ∀ pr ∈ tl, pr.2 ≠ none :=
      fun pr hpr => h pr (List.mem_cons_of_mem _ hpr)
    rw [loadPluginLoop_cons]
    split
    · split
      · exact absurd rfl hl
      · split
        · split <;> rfl
        · exact ih st htl
    · exact ih st htl

theorem loadPlugin_spec (env : Env) (st : PMState) (file : List Char)
    (r : Option Nat × PMState) (h : loadPlugin env st file = some r) :
    r.2.fileAssociations = st.fileAssociations ∧
      (r.1 = none → r.2 = { st with log := r.2.log }) := by
  unfold loadPlugin at h
  by_cases hex : env.fexists file
  · simp only [hex, if_true] at h
    exact loadPluginLoop_spec env file _ st r h
  · simp only [hex, if_false] at h
    have hs := loadPluginLoop_spec env file _ _ r h
    exact ⟨hs.1, fun hn => hs.2 hn⟩

theorem loadPlugin_total (env : Env) (st : PMState) (file : List Char)
    (h : noNullLoaders st) : (loadPlugin env st file).isSome := by
  unfold loadPlugin
  by_cases hex : env.fexists file
  · simp only [hex, if_true]
    exact loadPluginLoop_total env file _ st h
  · simp only [hex, if_false]
    exact loadPluginLoop_total env file _ _ h

theorem scanOutcomes_nil (env : Env) (st : PMState) :
    scanOutcomes env st [] = some ([], st) := rfl

theorem scanOutcomes_cons (env : Env) (st : PMState) (e : DirEntry)
    (es : List DirEntry) :
    scanOutcomes env st (e :: es) =
      (match candidateOf env e with
      | none => scanOutcomes env st es
      | some file =>
        match loadPlugin env st file with
        | none => none
        | some (res, st1) =>
          match scanOutcomes env st1 es with
          | none => none
          | some (outs, st2) => some (res :: outs, st2)) := rfl

theorem loadPluginsLoop_nil (env : Env) (st : PMState) :
    loadPluginsLoop env st [] = some ([], st) := rfl

theorem loadPluginsLoop_cons (env : Env) (st : PMState) (e : DirEntry)
    (es : List DirEntry) :
    loadPluginsLoop env st (e :: es) =
      (match candidateOf env e with
      | none => loadPluginsLoop env st es
      | some file =>
        match loadPlugin env st file with
        | none => none
        | some (res, st1) =>
          match loadPluginsLoop env st1 es with
          | none => none
          | some (loaded, st2) =>
            match res with
            | some pid => some (pid :: loaded, st2)
            | none => some (loaded, st2)) := rfl

theorem scanOutcomes_total (env : Env) :
    ∀ (es : List DirEntry) (st : PMState), noNullLoaders st →
      (scanOutcomes env st es).isSome := by
  intro es
  induction es with
  | nil => intro st _; rfl
  | cons e tl ih =>
    intro st h
    rw [scanOutcomes_cons]
    cases hc : candidateOf env e with
    | none =>
      simp only
      exact ih st h
    | some file =>
      simp only
      have htot := loadPlugin_total env st file h
      cases hload : loadPlugin env st file with
      | none => rw [hload] at htot; simp at htot
      | some r =>
        obtain ⟨res, st1⟩ := r
        simp only
        have hpres := (loadPlugin_spec env st file (res, st1) hload).1
        have h1 : noNullLoaders st1 := by
          unfold noNullLoaders
          rw [hpres]
          exact h
        have hrec := ih st1 h1
        cases hscan : scanOutcomes env st1 tl with
        | none => rw [hscan] at hrec; simp at hrec
        | some r2 =>
          obtain ⟨outs, st2⟩ := r2
          cases res <;> rfl

theorem loadPluginsLoop_eq_scan (env : Env) :
    ∀ (es : List DirEntry) (st : PMState),
      loadPluginsLoop env st es =
        (scanOutcomes env st es).map (fun r => (r.1.filterMap id, r.2)) := by
  intro es
  induction es with
  | nil => intro st; rfl
  | cons e tl ih =>
    intro st
    rw [loadPluginsLoop_cons, scanOutcomes_cons]
    cases hc : candidateOf env e with
    | none =>
      simp only
      exact ih st
    | some file =>
      simp only
      cases hload : loadPlugin env st file with
      | none => rfl
      | some r =>
        obtain ⟨res, st1⟩ := r
        simp only
        rw [ih st1]
        cases hscan : scanOutcomes env st1 tl with
        | none => rfl
        | some r2 =>
          obtain ⟨outs, st2⟩ := r2
          cases res <;> rfl

/-- Claim C6: on an existing directory (and with no moved-from loader
association in the state, so that no load dereferences a null pointer),
loadPlugins runs the scan to completion and returns exactly the
candidates whose load succeeded, in scan order (the filterMap of the
per-candidate outcome sequence); and a candidate whose load fails leaves
every registry field unchanged (only the log grows), so it cannot affect
the loading of the other candidates. -/
theorem loadPlugins_exactly_successes (env : Env) (st : PMState) (dir : Dir)
    (hex : dir.dexists = true) (hdir : dir.isDirectory = true)
    (hnn : noNullLoaders st) :
    (∃ outs st2, scanOutcomes env st dir.entries = some (outs, st2) ∧
       loadPlugins env st dir = some (outs.filterMap id, st2)) ∧
    (∀ (st0 : PMState) (file : List Char) (r : Option Nat × PMState),
       loadPlugin env st0 file = some r → r.1 = none →
       r.2 = { st0 with log := r.2.log }) := by
  constructor
  · have htot := scanOutcomes_total env dir.entries st hnn
    cases hscan : scanOutcomes env st dir.entries with
    | none => rw [hscan] at htot; simp at htot
    | some r =>
      obtain ⟨outs, st2⟩ := r
      refine ⟨outs, st2, rfl, ?_⟩
      unfold loadPlugins
      rw [hex, hdir]
      simp only [Bool.not_true, if_false]
      rw [loadPluginsLoop_eq_scan env dir.entries st, hscan]
      rfl
  · intro st0 file r h hn
    exact (loadPlugin_spec env st0 file r h).2 hn

/-- Witness for C6: a directory holding one valid and one malformed
plugin file, scanned with a single non-null loader. -/
theorem loadPlugins_exactly_successes_witness :
    dirScan.dexists = true ∧ dirScan.isDirectory = true ∧
    noNullLoaders stScan ∧
    ((∃ outs st2, scanOutcomes envScan stScan dirScan.entries = some (outs, st2) ∧
        loadPlugins envScan stScan dirScan = some (outs.filterMap id, st2)) ∧
     (∀ (st0 : PMState) (file : List Char) (r : Option Nat × PMState),
        loadPlugin envScan st0 file = some r → r.1 = none →
        r.2 = { st0 with log := r.2.log })) :=
  ⟨rfl, rfl, by decide,
   loadPlugins_exactly_successes envScan stScan dirScan rfl rfl (by decide)⟩

end Endstone
